import Mathlib

/-!
# Verification of the media-collection editor and its reconciliation action

Shallow embedding of the gallery editor in
`src/app/components/ImageUploader.tsx` and of the server-side `action` in
`src/app/routes/vehiculos.nuevo.tsx`.

Client side: the React component keeps two pieces of state, an ordered list
`orderedImages : ImageUploaderImage[]` and a deletion log
`imagesToDelete : {id, storage_id}[]`.  We model the state as a structure,
each handler as a pure state transformer, and the preview-URL revocations
(`URL.revokeObjectURL`) as an explicit log so that resource release is
observable.

Server side: the `action` function is modelled as a function from an
environment (which records which Supabase calls succeed and what the store
returns) and the parsed form input to a result plus a trace of attempted
store operations.  `Promise.allSettled` over independent per-item closures
is modelled by mapping each task to its own event list and outcome and
concatenating, which preserves exactly the properties at stake: no task's
failure removes another task's events or outcome, and the cover-image step
runs after all of them.
-/

namespace Arrankar

/-- One entry of the `orderedImages` state
(`ImageUploaderImage` in `ImageUploader.tsx`).
For new images `id = storage_id` (a freshly minted UUID) and `file` is the
picked file (modelled by an opaque name); for existing images `id` is the
database row id and `file` is absent.  `order_index` is only present on
seeded existing images (the component spreads the parsed value in). -/
structure Image where
  id : String
  storage_id : String
  url : String
  order_index : Option Int
  destacada : Bool
  isNew : Bool
  file : Option String
deriving DecidableEq, Repr

/-- The component state: the ordered gallery, the pending-deletion log, the
log of revoked preview URLs (each `URL.revokeObjectURL` call appends one
entry), and the `isInitialized` ref used by the seeding effect. -/
structure UploaderState where
  orderedImages : List Image
  imagesToDelete : List (String × String)
  revoked : List String
  isInitialized : Bool
deriving DecidableEq, Repr

/-- Fresh component state: both `useState` initialisers are empty and the
`isInitialized` ref starts `false`. -/
def initState : UploaderState :=
  { orderedImages := [], imagesToDelete := [], revoked := [], isInitialized := false }

/-- Input to the seeding effect: one element of the `existingImages` prop.
The component calls `parseInt` on `order_index`; we model the already
parsed numeric value. -/
structure ExistingInput where
  id : String
  url : String
  storage_id : String
  order_index : Int
  destacada : Bool
deriving DecidableEq, Repr

/-- Insertion step of the ascending sort
`existingImages.sort((a, b) => parseInt(a.order_index) - parseInt(b.order_index))`. -/
def insertByOrder (x : ExistingInput) : List ExistingInput → List ExistingInput
  | [] => [x]
  | y :: ys =>
    if x.order_index ≤ y.order_index then x :: y :: ys else y :: insertByOrder x ys

/-- Ascending sort by `order_index` (models the JS `Array.prototype.sort`
with numeric comparator; only sortedness and being a permutation matter to
the properties proved below). -/
def sortByOrderIndex : List ExistingInput → List ExistingInput
  | [] => []
  | x :: xs => insertByOrder x (sortByOrderIndex xs)

/-- `.map((img) => ({ ...img, order_index: parseInt(...), isNew: false }))`:
an existing image loaded into the collection. -/
def seedImage (e : ExistingInput) : Image :=
  { id := e.id, storage_id := e.storage_id, url := e.url,
    order_index := some e.order_index, destacada := e.destacada,
    isNew := false, file := none }

/-- The seeding `useEffect`: runs only while `isInitialized.current` is
false; if the prop list is non-empty it replaces `orderedImages` with the
sorted, `isNew := false` tagged images; in every case it then sets the
ref, so all later runs are no-ops. -/
def seed (existing : List ExistingInput) (s : UploaderState) : UploaderState :=
  if s.isInitialized then s
  else
    { s with
      orderedImages :=
        if existing.length > 0 then (sortByOrderIndex existing).map seedImage
        else s.orderedImages,
      isInitialized := true }

/-- Input to `handleFileSelect`: a picked file together with the UUID that
`generateUUID()` mints for it and the preview URL `URL.createObjectURL`
returns.  UUID freshness is a property of the generator and appears as a
hypothesis where it is needed. -/
structure NewInput where
  sid : String
  url : String
  file : String
deriving DecidableEq, Repr

/-- The `files.map((file, index) => ...)` body of `handleFileSelect`,
written with an explicit running index: a new image whose `id` and
`storage_id` are the minted UUID and which is featured exactly when the
collection was empty and this is the first picked file. -/
def mkNewImagesAux (prevEmpty : Bool) (idx : Nat) : List NewInput → List Image
  | [] => []
  | a :: rest =>
    { id := a.sid, storage_id := a.sid, url := a.url, order_index := none,
      destacada := prevEmpty && idx == 0, isNew := true, file := some a.file }
      :: mkNewImagesAux prevEmpty (idx + 1) rest

/-- All new images created by one `handleFileSelect` call. -/
def mkNewImages (prevEmpty : Bool) (inputs : List NewInput) : List Image :=
  mkNewImagesAux prevEmpty 0 inputs

/-- `newImages[0].destacada = true`: feature the head of a list. -/
def setHeadFeatured : List Image → List Image
  | [] => []
  | x :: xs => { x with destacada := true } :: xs

/-- `handleFileSelect`: builds the new images, then (the defensive branch)
features the first of them when the current collection has no featured
item, and appends them. -/
def handleFileSelect (inputs : List NewInput) (s : UploaderState) : UploaderState :=
  let newImages := mkNewImages s.orderedImages.isEmpty inputs
  let newImages :=
    if newImages.length > 0 && s.orderedImages.all (fun img => !img.destacada) then
      setHeadFeatured newImages
    else newImages
  { s with orderedImages := s.orderedImages ++ newImages }

/-- `handleSetDestacada`: `prev.map(img => ({ ...img, destacada: img.storage_id === storage_id }))`. -/
def handleSetDestacada (sid : String) (s : UploaderState) : UploaderState :=
  { s with
    orderedImages :=
      s.orderedImages.map (fun img => { img with destacada := img.storage_id == sid }) }

/-- `handleRemoveImage`: filters the item out by `id`, re-features the first
remaining image when the removed one was featured, and either revokes the
preview URL (new image) or logs a pending deletion (existing image). -/
def handleRemoveImage (imageToRemove : Image) (s : UploaderState) : UploaderState :=
  let wasDestacada := imageToRemove.destacada
  let remaining := s.orderedImages.filter (fun img => !(img.id == imageToRemove.id))
  let remaining :=
    if wasDestacada && remaining.length > 0 then setHeadFeatured remaining
    else remaining
  { s with
    orderedImages := remaining,
    imagesToDelete :=
      if imageToRemove.isNew then s.imagesToDelete
      else s.imagesToDelete ++ [(imageToRemove.id, imageToRemove.storage_id)],
    revoked :=
      if imageToRemove.isNew then imageToRemove.url :: s.revoked
      else s.revoked }

/-- The insertion half of dnd-kit's `arrayMove` splice: insert at position
`j`, appending when `j` is past the end (JS `splice` clamps). -/
def insertAt (j : Nat) (x : Image) : List Image → List Image
  | [] => [x]
  | y :: t =>
    match j with
    | 0 => x :: y :: t
    | j' + 1 => y :: insertAt j' x t

/-- dnd-kit's `arrayMove(array, from, to)`: remove the element at `from`
and re-insert it at `to`.  `onDragEnd` only calls it with indices obtained
from successful `findIndex`, so `from` is always in range. -/
def arrayMove (l : List Image) (i j : Nat) : List Image :=
  match l[i]? with
  | none => l
  | some x => insertAt j x (l.eraseIdx i)

/-- `onDragEnd`: no-op when the ids coincide or either id is not found,
otherwise `arrayMove` on the two found indices. -/
def onDragEnd (activeId overId : String) (s : UploaderState) : UploaderState :=
  if activeId == overId then s
  else
    match s.orderedImages.findIdx? (fun img => img.id == activeId),
          s.orderedImages.findIdx? (fun img => img.id == overId) with
    | some oldIndex, some newIndex =>
      { s with orderedImages := arrayMove s.orderedImages oldIndex newIndex }
    | _, _ => s

/-- One element of `orderedImagesMetadata` (`ImageMetadata` in the source):
the wire shape shared by the client extractor and the server action. -/
structure ImageMetadata where
  id : Option String
  storage_id : String
  order_index : Nat
  isNew : Bool
  destacada : Bool
  url : Option String
deriving DecidableEq, Repr

/-- The `orderedImages.map((img, index) => ...)` pass of the change-set
`useEffect`, with the 0-based position made an explicit argument:
`order_index := idx + 1`. -/
def extractMetadataAux (idx : Nat) : List Image → List ImageMetadata
  | [] => []
  | img :: rest =>
    { id := if img.isNew then none else some img.id,
      storage_id := img.storage_id,
      order_index := idx + 1,
      isNew := img.isNew,
      destacada := img.destacada,
      url := if img.isNew then none else some img.url }
      :: extractMetadataAux (idx + 1) rest

/-- `orderedImagesMetadata` for the current collection. -/
def extractMetadata (orderedImages : List Image) : List ImageMetadata :=
  extractMetadataAux 0 orderedImages

/-- The `filesToUpload` map built in the same pass: one `(storage_id, file)`
entry per new image that carries a file, in collection order. -/
def extractFilesToUpload (orderedImages : List Image) : List (String × String) :=
  orderedImages.filterMap (fun img =>
    if img.isNew then img.file.map (fun f => (img.storage_id, f)) else none)

/-- `ImageUploaderChanges`: the value handed to `onImagesChange`. -/
structure Changes where
  orderedImagesMetadata : List ImageMetadata
  filesToUpload : List (String × String)
  imageIdsToDelete : List (String × String)
deriving DecidableEq, Repr

/-- The change-set `useEffect` as a pure function of the two state pieces. -/
def extractChanges (orderedImages : List Image)
    (imagesToDelete : List (String × String)) : Changes :=
  { orderedImagesMetadata := extractMetadata orderedImages,
    filesToUpload := extractFilesToUpload orderedImages,
    imageIdsToDelete := imagesToDelete }

/-- Number of featured images in a list. -/
def featCount (l : List Image) : Nat := l.countP (fun img => img.destacada)

/-! ## Server side: the `action` of `vehiculos.nuevo.tsx`

The action is modelled from the vehicle-insert step onward as a pure
function of an environment describing the backing stores.  Each per-item
closure handed to `Promise.allSettled` becomes a task producing its own
event list (the store operations it attempts, each tagged with whether the
store accepted it) and its settled outcome (`Settled.rejected` for a
rejected promise).  A `throw` inside a task only rejects that promise, which
is why task failures never surface in the action's result. -/

/-- Outcome of one settled promise in the `Promise.allSettled` array. -/
inductive Settled where
  | fulfilled : Settled
  | rejected : String → Settled
deriving DecidableEq, Repr

/-- One entry of the parsed `imageIdsToDelete` list. -/
structure DeleteItem where
  id : String
  storage_id : String
deriving DecidableEq, Repr

/-- Store/side-effect events attempted by the action, in particular the
object-store and relational operations.  The `Bool` on fallible operations
records whether the environment made that call succeed. -/
inductive Ev where
  | vehicleInsert : Ev
  | listBuckets : Ev
  | upload : String → Bool → Ev
  | insertRow : String → String → String → String → String → Ev
  | updateRow : String → String → String → Bool → Ev
  | storageRemove : String → Bool → Ev
  | rowDelete : String → Bool → Ev
  | coverUpdate : String → String → Bool → Ev
deriving DecidableEq, Repr

/-- Environment: which Supabase calls succeed and what the store returns
(the inserted vehicle's `id`/`uuid`, public URLs). -/
structure Env where
  sessionOk : Bool
  userOk : Bool
  vehicleInsertOk : Bool
  vehicleId : Nat
  vehicleUuid : String
  listBucketsOk : Bool
  bucketExists : Bool
  uploadOk : String → Bool
  insertOk : String → Bool
  updateOk : String → Bool
  storageRemoveOk : String → Bool
  rowDeleteOk : String → Bool
  coverUpdateOk : Bool
  publicUrl : String → String

/-- `true`/`false` as the source stores them in the `destacada` column. -/
def destacadaStr (b : Bool) : String := if b then "true" else "false"

/-- The storage path `${vehicleId}/${storage_id}`. -/
def storagePath (vehicleId : Nat) (sid : String) : String :=
  toString vehicleId ++ "/" ++ sid

/-- One step-2 closure (upload + metadata insert for a new image).  When no
file arrived under the image's `storage_id` the closure returns early with
no store operation and a fulfilled promise; `throw`s become a rejected
outcome for this task only. -/
def uploadTask (env : Env) (files : String → Option String)
    (meta : ImageMetadata) : List Ev × Settled :=
  match files meta.storage_id with
  | none => ([], Settled.fulfilled)
  | some _ =>
    let filePath := storagePath env.vehicleId meta.storage_id
    if !env.listBucketsOk then ([Ev.listBuckets], Settled.rejected "bucketsError")
    else if !env.bucketExists then
      ([Ev.listBuckets], Settled.rejected "Bucket imagen-vehiculo no existe")
    else if !env.uploadOk filePath then
      ([Ev.listBuckets, Ev.upload filePath false], Settled.rejected "uploadError")
    else
      let insEv := Ev.insertRow env.vehicleUuid (env.publicUrl filePath)
        (toString meta.order_index) meta.storage_id (destacadaStr meta.destacada)
      if !env.insertOk meta.storage_id then
        ([Ev.listBuckets, Ev.upload filePath true, insEv], Settled.rejected "insertError")
      else
        ([Ev.listBuckets, Ev.upload filePath true, insEv], Settled.fulfilled)

/-- One step-3 closure (order/featured update for an existing image).  The
closure returns the Supabase result object, so its promise is always
fulfilled even when the update fails. -/
def updateTask (env : Env) (meta : ImageMetadata) : List Ev × Settled :=
  ([Ev.updateRow (meta.id.getD "") (toString meta.order_index)
      (destacadaStr meta.destacada) (env.updateOk (meta.id.getD ""))],
   Settled.fulfilled)

/-- One step-4 closure (delete a removed image).  The object-store `remove`
result is not inspected, so the row deletion is attempted unconditionally
after it, and the row-deletion result object is returned, never thrown. -/
def deleteTask (env : Env) (item : DeleteItem) : List Ev × Settled :=
  let path := storagePath env.vehicleId item.storage_id
  ([Ev.storageRemove path (env.storageRemoveOk path),
    Ev.rowDelete item.id (env.rowDeleteOk item.id)],
   Settled.fulfilled)

/-- The array handed to `Promise.allSettled`: uploads for the new entries,
updates for the existing entries, deletions for the removal list. -/
def imageTasks (env : Env) (files : String → Option String)
    (metas : List ImageMetadata) (dels : List DeleteItem) :
    List (List Ev × Settled) :=
  (metas.filter (fun m => m.isNew)).map (uploadTask env files)
    ++ (metas.filter (fun m => !m.isNew)).map (updateTask env)
    ++ dels.map (deleteTask env)

/-- Step 5: `orderedImagesMetadata.find(meta => meta.destacada === true)`;
for a new featured image the public URL is recomputed from the storage
path, for an existing one the stored `url` (or `''`) is used, and the
parent update is attempted exactly when that URL is non-empty.  An update
error is logged, never thrown. -/
def coverStep (env : Env) (metas : List ImageMetadata) : List Ev :=
  match metas.find? (fun m => m.destacada) with
  | none => []
  | some m =>
    let featuredImageUrl :=
      if m.isNew then env.publicUrl (storagePath env.vehicleId m.storage_id)
      else m.url.getD ""
    if featuredImageUrl == "" then []
    else [Ev.coverUpdate env.vehicleUuid featuredImageUrl env.coverUpdateOk]

/-- The parsed form input reaching the action: the raw text fields
(`formData.get` returns `null` or a string), the parsed image metadata and
deletion lists, and the file lookup `formData.get(storage_id)` (`none`
when the value is missing or not a `File`). -/
structure FormInput where
  marca : Option String
  modelo : Option String
  version : Option String
  combustible : Option String
  color : Option String
  placa : Option String
  transmision : Option String
  carroceria : Option String
  traccion : Option String
  anio : Option String
  puertas : Option String
  km : Option String
  precio : Option String
  cilindraje : Option String
  orderedImagesMetadata : List ImageMetadata
  imageIdsToDelete : List DeleteItem
  files : String → Option String

/-- A required select/text field fails validation exactly when it is
missing or empty (JS `!value` on `null` or a string). -/
def strFieldError : Option String → Bool
  | none => true
  | some s => s == ""

/-- JS `String.prototype.trim`, modelled on the character list (the
built-in `String.trim` is extensionally the same but does not reduce in
the kernel, which concrete witnesses below need). -/
def jsTrim (s : String) : String :=
  String.mk (((s.data.dropWhile Char.isWhitespace).reverse.dropWhile
    Char.isWhitespace).reverse)

/-- `!placa?.trim()`. -/
def placaFieldError : Option String → Bool
  | none => true
  | some s => jsTrim s == ""

/-- A required numeric field fails validation exactly when it is missing,
empty, or `Number(raw)` is `NaN`.  `jsNumber` abstracts JS `Number`
(`none` standing for `NaN`). -/
def numFieldError (jsNumber : String → Option Int) : Option String → Bool
  | none => true
  | some s => s == "" || (jsNumber s).isNone

/-- The `errors` object of the action, as the field-keyed list of messages
in the order the source checks them. -/
def validateFields (jsNumber : String → Option Int) (f : FormInput) :
    List (String × String) :=
  (if strFieldError f.marca then [("marca", "Marca es requerida")] else [])
    ++ (if strFieldError f.modelo then [("modelo", "Modelo es requerido")] else [])
    ++ (if numFieldError jsNumber f.anio then [("anio", "Año es requerido")] else [])
    ++ (if strFieldError f.version then [("version", "Versión es requerida")] else [])
    ++ (if numFieldError jsNumber f.puertas then [("puertas", "Puertas es requerido")] else [])
    ++ (if strFieldError f.combustible then [("combustible", "Combustible es requerido")] else [])
    ++ (if strFieldError f.color then [("color", "Color es requerido")] else [])
    ++ (if placaFieldError f.placa then [("placa", "Placa es requerida")] else [])
    ++ (if numFieldError jsNumber f.km then [("km", "Kilometraje es requerido")] else [])
    ++ (if numFieldError jsNumber f.precio then [("precio", "Precio es requerido")] else [])
    ++ (if strFieldError f.transmision then [("transmision", "Transmisión es requerida")] else [])
    ++ (if strFieldError f.carroceria then [("carroceria", "Carrocería es requerida")] else [])
    ++ (if strFieldError f.traccion then [("traccion", "Tracción es requerida")] else [])
    ++ (if numFieldError jsNumber f.cilindraje then [("cilindraje", "Cilindraje es requerido")] else [])

/-- The action's possible returns. -/
inductive ActionResult where
  | sessionError : ActionResult
  | validationErrors : List (String × String) → ActionResult
  | serverError : String → ActionResult
  | redirectTo : String → ActionResult
deriving DecidableEq, Repr

/-- The action from the session check onward: session/user guards, field
validation, vehicle insert (a throw there is caught and becomes the 500
branch), then the settled image tasks followed by the cover-image step,
and the redirect.  The second component is the trace of attempted store
operations. -/
def runAction (env : Env) (jsNumber : String → Option Int) (f : FormInput) :
    ActionResult × List Ev :=
  if !env.sessionOk then (ActionResult.sessionError, [])
  else if !env.userOk then (ActionResult.sessionError, [])
  else
    let errs := validateFields jsNumber f
    if !errs.isEmpty then (ActionResult.validationErrors errs, [])
    else if !env.vehicleInsertOk then
      (ActionResult.serverError "vehicleError", [Ev.vehicleInsert])
    else
      let tasks := imageTasks env f.files f.orderedImagesMetadata f.imageIdsToDelete
      (ActionResult.redirectTo "/vehiculos",
       Ev.vehicleInsert :: (tasks.flatMap Prod.fst ++ coverStep env f.orderedImagesMetadata))

/-- The settled outcomes `Promise.allSettled` collects (the source awaits
them all and discards the array; we name it to state that every task
settles). -/
def settledOutcomes (env : Env) (f : FormInput) : List Settled :=
  (imageTasks env f.files f.orderedImagesMetadata f.imageIdsToDelete).map Prod.snd

/-! ## Invariants and reachable editor states -/

/-- The editor's collection invariant: ids and storage keys are pairwise
distinct, and a non-empty collection has exactly one featured item. -/
def InvImages (l : List Image) : Prop :=
  (l.map (fun img => img.id)).Nodup ∧ (l.map (fun img => img.storage_id)).Nodup ∧
    (l ≠ [] → featCount l = 1)

/-- Freshness of the UUIDs minted by `generateUUID` during one
`handleFileSelect` call: pairwise distinct and unused in the collection. -/
def FreshInputs (inputs : List NewInput) (l : List Image) : Prop :=
  (inputs.map (fun a => a.sid)).Nodup ∧
    ∀ nid ∈ inputs.map (fun a => a.sid),
      nid ∉ l.map (fun img => img.id) ∧ nid ∉ l.map (fun img => img.storage_id)

instance (inputs : List NewInput) (l : List Image) : Decidable (FreshInputs inputs l) := by
  unfold FreshInputs; infer_instance

/-- States reachable from the fresh collection by the editor's handlers as
the UI can actually invoke them: `handleSetDestacada` is only ever called
from the star button of a rendered image, so its argument is the storage
key of a collection member, and `handleRemoveImage` receives a rendered
member. -/
inductive Reach : UploaderState → Prop where
  | init : Reach initState
  | addFiles (s : UploaderState) (inputs : List NewInput) (h : Reach s)
      (hfresh : FreshInputs inputs s.orderedImages) :
      Reach (handleFileSelect inputs s)
  | setFeatured (s : UploaderState) (sid : String) (h : Reach s)
      (hmem : sid ∈ s.orderedImages.map (fun img => img.storage_id)) :
      Reach (handleSetDestacada sid s)
  | remove (s : UploaderState) (img : Image) (h : Reach s)
      (hmem : img ∈ s.orderedImages) :
      Reach (handleRemoveImage img s)
  | reorder (s : UploaderState) (activeId overId : String) (h : Reach s) :
      Reach (onDragEnd activeId overId s)

/-- States reachable when `setFeatured` may be invoked with an arbitrary
identity (the literal reading of the specified operation set, which places
no condition on the identity argument). -/
inductive ReachAny : UploaderState → Prop where
  | init : ReachAny initState
  | addFiles (s : UploaderState) (inputs : List NewInput) (h : ReachAny s)
      (hfresh : FreshInputs inputs s.orderedImages) :
      ReachAny (handleFileSelect inputs s)
  | setFeatured (s : UploaderState) (sid : String) (h : ReachAny s) :
      ReachAny (handleSetDestacada sid s)
  | remove (s : UploaderState) (img : Image) (h : ReachAny s)
      (hmem : img ∈ s.orderedImages) :
      ReachAny (handleRemoveImage img s)
  | reorder (s : UploaderState) (activeId overId : String) (h : ReachAny s) :
      ReachAny (onDragEnd activeId overId s)

/-- Forget the featured flag (used to state that `handleSetDestacada`
changes nothing but featured flags). -/
def clearFeatured (img : Image) : Image := { img with destacada := false }

/-! ## Concrete fixtures used by witnesses and counterexamples -/

/-- A picked file with its minted UUID and preview URL. -/
def newInput1 : NewInput := { sid := "n1", url := "blob:n1", file := "f1" }

/-- A featured existing image. -/
def imgExisting : Image :=
  { id := "a", storage_id := "sa", url := "ua", order_index := none,
    destacada := true, isNew := false, file := none }

/-- A non-featured new image. -/
def imgNew : Image :=
  { id := "n2", storage_id := "n2", url := "blob:n2", order_index := none,
    destacada := false, isNew := true, file := some "f2" }

/-- A seeded state holding one featured existing image. -/
def stateOneExisting : UploaderState :=
  { orderedImages := [imgExisting], imagesToDelete := [], revoked := [],
    isInitialized := true }

/-- Metadata of a new, featured image as submitted to the action. -/
def metaNewFeatured : ImageMetadata :=
  { id := none, storage_id := "n1", order_index := 1, isNew := true,
    destacada := true, url := none }

/-- An environment where every store call succeeds. -/
def envAllOk : Env :=
  { sessionOk := true, userOk := true, vehicleInsertOk := true, vehicleId := 7,
    vehicleUuid := "vu", listBucketsOk := true, bucketExists := true,
    uploadOk := fun _ => true, insertOk := fun _ => true, updateOk := fun _ => true,
    storageRemoveOk := fun _ => true, rowDeleteOk := fun _ => true,
    coverUpdateOk := true, publicUrl := fun p => "https://cdn/" ++ p }

/-- An environment where every binary upload and every object-store
removal fails while everything else succeeds. -/
def envUploadFails : Env :=
  { envAllOk with uploadOk := fun _ => false, storageRemoveOk := fun _ => false }

/-- A stand-in for JS `Number` that parses every string. -/
def jsNumberConst : String → Option Int := fun _ => some 1

/-- A fully valid form carrying one new featured image and one pending
deletion. -/
def formFixture : FormInput :=
  { marca := some "Kia", modelo := some "Rio", version := some "LX",
    combustible := some "Gasolina", color := some "Rojo", placa := some "ABC123",
    transmision := some "Manual", carroceria := some "Sedan", traccion := some "4x2",
    anio := some "2020", puertas := some "4", km := some "10", precio := some "5000",
    cilindraje := some "1600",
    orderedImagesMetadata := [metaNewFeatured],
    imageIdsToDelete := [{ id := "rid", storage_id := "sid" }],
    files := fun s => if s == "n1" then some "file1" else none }

/-- `formFixture` with the required `marca` field missing. -/
def formMarcaMissing : FormInput := { formFixture with marca := none }

/-- `formFixture` with no binary payload at all. -/
def formNoFiles : FormInput := { formFixture with files := fun _ => none }

/-! ## Helper lemmas: the client collection -/

theorem setHeadFeatured_map_id (l : List Image) :
    (setHeadFeatured l).map (fun img => img.id) = l.map (fun img => img.id) := by
  cases l <;> rfl

theorem setHeadFeatured_map_sid (l : List Image) :
    (setHeadFeatured l).map (fun img => img.storage_id)
      = l.map (fun img => img.storage_id) := by
  cases l <;> rfl

theorem setHeadFeatured_nil_iff (l : List Image) : setHeadFeatured l = [] ↔ l = [] := by
  cases l <;> simp [setHeadFeatured]

theorem featCount_cons (x : Image) (xs : List Image) :
    featCount (x :: xs) = featCount xs + (if x.destacada then 1 else 0) := by
  simp [featCount, List.countP_cons]

theorem featCount_append (l m : List Image) :
    featCount (l ++ m) = featCount l + featCount m := by
  simp [featCount, List.countP_append]

theorem featCount_setHeadFeatured_cons (x : Image) (xs : List Image) :
    featCount (setHeadFeatured (x :: xs)) = featCount xs + 1 := by
  simp [setHeadFeatured, featCount_cons]

theorem mkNewImagesAux_map_id (pe : Bool) (inputs : List NewInput) :
    ∀ idx, (mkNewImagesAux pe idx inputs).map (fun img => img.id)
      = inputs.map (fun a => a.sid) := by
  induction inputs with
  | nil => intro idx; rfl
  | cons a rest ih => intro idx; simp [mkNewImagesAux, ih]

theorem mkNewImagesAux_map_sid (pe : Bool) (inputs : List NewInput) :
    ∀ idx, (mkNewImagesAux pe idx inputs).map (fun img => img.storage_id)
      = inputs.map (fun a => a.sid) := by
  induction inputs with
  | nil => intro idx; rfl
  | cons a rest ih => intro idx; simp [mkNewImagesAux, ih]

theorem featCount_mkNewImagesAux_succ (pe : Bool) (inputs : List NewInput) :
    ∀ k, featCount (mkNewImagesAux pe (k + 1) inputs) = 0 := by
  induction inputs with
  | nil => intro k; rfl
  | cons a rest ih =>
    intro k
    simp [mkNewImagesAux, featCount_cons, ih (k + 1)]

theorem featCount_mkNewImagesAux_false (inputs : List NewInput) :
    ∀ idx, featCount (mkNewImagesAux false idx inputs) = 0 := by
  induction inputs with
  | nil => intro idx; rfl
  | cons a rest ih => intro idx; simp [mkNewImagesAux, featCount_cons, ih (idx + 1)]

theorem featCount_mkNewImages_true_cons (a : NewInput) (rest : List NewInput) :
    featCount (mkNewImages true (a :: rest)) = 1 := by
  simp [mkNewImages, mkNewImagesAux, featCount_cons, featCount_mkNewImagesAux_succ]

theorem all_not_destacada_of_featCount_one (l : List Image) (h : featCount l = 1) :
    (l.all fun img => !img.destacada) = false := by
  cases hall : l.all fun img => !img.destacada with
  | false => rfl
  | true =>
    exfalso
    have h0 : featCount l = 0 := by
      refine List.countP_eq_zero.mpr ?_
      intro a ha
      have := List.all_eq_true.mp hall a ha
      simp at this
      simp [this]
    omega

theorem mkNewImages_map_id (pe : Bool) (inputs : List NewInput) :
    (mkNewImages pe inputs).map (fun img => img.id) = inputs.map (fun a => a.sid) :=
  mkNewImagesAux_map_id pe inputs 0

theorem mkNewImages_map_sid (pe : Bool) (inputs : List NewInput) :
    (mkNewImages pe inputs).map (fun img => img.storage_id)
      = inputs.map (fun a => a.sid) :=
  mkNewImagesAux_map_sid pe inputs 0

theorem invImages_appendNew (l : List Image) (inputs : List NewInput)
    (hid : (l.map (fun img => img.id)).Nodup)
    (hsid : (l.map (fun img => img.storage_id)).Nodup)
    (hfeat : l ≠ [] → featCount l = 1)
    (hnd : (inputs.map (fun a => a.sid)).Nodup)
    (hdisj : ∀ nid ∈ inputs.map (fun a => a.sid),
      nid ∉ l.map (fun img => img.id) ∧ nid ∉ l.map (fun img => img.storage_id)) :
    InvImages (l ++
      (if (mkNewImages l.isEmpty inputs).length > 0
          && l.all (fun img => !img.destacada) then
        setHeadFeatured (mkNewImages l.isEmpty inputs)
      else mkNewImages l.isEmpty inputs)) := by
  have hbid : (if (mkNewImages l.isEmpty inputs).length > 0
      && l.all (fun img => !img.destacada) then
        setHeadFeatured (mkNewImages l.isEmpty inputs)
      else mkNewImages l.isEmpty inputs).map (fun img => img.id)
      = inputs.map (fun a => a.sid) := by
    split
    · rw [setHeadFeatured_map_id, mkNewImages_map_id]
    · rw [mkNewImages_map_id]
  have hbsid : (if (mkNewImages l.isEmpty inputs).length > 0
      && l.all (fun img => !img.destacada) then
        setHeadFeatured (mkNewImages l.isEmpty inputs)
      else mkNewImages l.isEmpty inputs).map (fun img => img.storage_id)
      = inputs.map (fun a => a.sid) := by
    split
    · rw [setHeadFeatured_map_sid, mkNewImages_map_sid]
    · rw [mkNewImages_map_sid]
  refine ⟨?_, ?_, ?_⟩
  · rw [List.map_append, hbid, List.nodup_append]
    exact ⟨hid, hnd, fun a ha hb => (hdisj a hb).1 ha⟩
  · rw [List.map_append, hbsid, List.nodup_append]
    exact ⟨hsid, hnd, fun a ha hb => (hdisj a hb).2 ha⟩
  · intro hne
    cases l with
    | nil =>
      cases inputs with
      | nil => simp [mkNewImages, mkNewImagesAux, setHeadFeatured] at hne
      | cons a rest =>
        have h1 : mkNewImages (List.isEmpty ([] : List Image)) (a :: rest)
            = { id := a.sid, storage_id := a.sid, url := a.url, order_index := none,
                destacada := true, isNew := true, file := some a.file }
              :: mkNewImagesAux true 1 rest := rfl
        rw [List.nil_append]
        split
        · rw [h1, featCount_setHeadFeatured_cons,
            featCount_mkNewImagesAux_succ true rest 0]
        · rename_i hc
          exfalso
          apply hc
          rw [h1]
          simp
    | cons o os =>
      have hfeat1 : featCount (o :: os) = 1 := hfeat (by simp)
      have hall : ((o :: os).all fun img => !img.destacada) = false :=
        all_not_destacada_of_featCount_one _ hfeat1
      have hcond : ¬ ((mkNewImages (o :: os).isEmpty inputs).length > 0
          && ((o :: os).all fun img => !img.destacada)) = true := by
        rw [hall]; simp
      rw [if_neg hcond, featCount_append, hfeat1]
      have h2 : (o :: os).isEmpty = false := rfl
      rw [h2]
      have h0 : featCount (mkNewImages false inputs) = 0 :=
        featCount_mkNewImagesAux_false inputs 0
      rw [h0]

theorem invImages_handleFileSelect (s : UploaderState) (inputs : List NewInput)
    (hinv : InvImages s.orderedImages) (hfresh : FreshInputs inputs s.orderedImages) :
    InvImages (handleFileSelect inputs s).orderedImages := by
  obtain ⟨l, dels, rev, ini⟩ := s
  exact invImages_appendNew l inputs hinv.1 hinv.2.1 hinv.2.2 hfresh.1 hfresh.2

theorem invImages_handleSetDestacada (s : UploaderState) (sid : String)
    (hinv : InvImages s.orderedImages)
    (hmem : sid ∈ s.orderedImages.map (fun img => img.storage_id)) :
    InvImages (handleSetDestacada sid s).orderedImages := by
  obtain ⟨hid, hsid, _⟩ := hinv
  have hresult : (handleSetDestacada sid s).orderedImages
      = s.orderedImages.map (fun img => { img with destacada := img.storage_id == sid }) := rfl
  refine ⟨?_, ?_, ?_⟩
  · rw [hresult, List.map_map]
    exact hid
  · rw [hresult, List.map_map]
    exact hsid
  · intro _
    rw [hresult]
    have h1 : featCount (s.orderedImages.map
        (fun img => { img with destacada := img.storage_id == sid }))
        = s.orderedImages.countP (fun img => img.storage_id == sid) := by
      simp [featCount, List.countP_map]
      rfl
    have h2 : s.orderedImages.countP (fun img => img.storage_id == sid)
        = (s.orderedImages.map (fun img => img.storage_id)).count sid := by
      rw [List.count_eq_countP, List.countP_map]
      rfl
    rw [h1, h2]
    exact List.count_eq_one_of_mem hsid hmem

theorem filter_ne_id_eq_erase (l : List Image) (x : Image)
    (hnd : (l.map (fun img => img.id)).Nodup) (hx : x ∈ l) :
    l.filter (fun y => !(y.id == x.id)) = l.erase x := by
  induction l with
  | nil => cases hx
  | cons h t ih =>
    rw [List.map_cons, List.nodup_cons] at hnd
    rcases eq_or_ne h x with rfl | hne
    · rw [List.erase_cons_head]
      rw [List.filter_cons]
      split
      · rename_i hcc
        exfalso
        simp at hcc
      · refine List.filter_eq_self.mpr ?_
        intro y hy
        have hyid : y.id ∈ t.map (fun img => img.id) := List.mem_map_of_mem _ hy
        have : y.id ≠ h.id := fun he => hnd.1 (he ▸ hyid)
        simp [this]
    · have hxt : x ∈ t := by
        rcases List.mem_cons.mp hx with rfl | hm
        · exact absurd rfl hne
        · exact hm
      have hhid : h.id ≠ x.id := by
        intro he
        exact hnd.1 (he ▸ List.mem_map_of_mem _ hxt)
      rw [List.filter_cons]
      have herase : (h :: t).erase x = h :: t.erase x := by
        rw [List.erase_cons_tail]
        simp [hne]
      rw [herase]
      have hkeep : (!(h.id == x.id)) = true := by simp [hhid]
      rw [if_pos hkeep]
      rw [ih hnd.2 hxt]

theorem featCount_erase (l : List Image) (x : Image) (hx : x ∈ l) :
    featCount l = featCount (l.erase x) + (if x.destacada then 1 else 0) := by
  have hperm := List.perm_cons_erase hx
  have h1 := hperm.countP_eq (fun img => img.destacada)
  have h2 : featCount (x :: l.erase x)
      = featCount (l.erase x) + (if x.destacada then 1 else 0) := featCount_cons x _
  calc featCount l = featCount (x :: l.erase x) := h1
    _ = featCount (l.erase x) + (if x.destacada then 1 else 0) := h2

theorem featCount_all_zero_of_one (l : List Image) (x : Image) (hx : x ∈ l)
    (hd : x.destacada = true) (h1 : featCount l = 1) :
    featCount (l.erase x) = 0 := by
  have := featCount_erase l x hx
  rw [hd] at this
  simp at this
  omega

theorem invImages_handleRemoveImage (s : UploaderState) (x : Image)
    (hinv : InvImages s.orderedImages) (hx : x ∈ s.orderedImages) :
    InvImages (handleRemoveImage x s).orderedImages := by
  obtain ⟨l, dels, rev, ini⟩ := s
  obtain ⟨hid, hsid, hfeat⟩ := hinv
  have hx' : x ∈ l := hx
  have hfilter : l.filter (fun y => !(y.id == x.id)) = l.erase x :=
    filter_ne_id_eq_erase l x hid hx'
  have hsub : (l.erase x).Sublist l := List.erase_sublist x l
  have hide : ((l.erase x).map (fun img => img.id)).Nodup :=
    hid.sublist (hsub.map _)
  have hside : ((l.erase x).map (fun img => img.storage_id)).Nodup :=
    hsid.sublist (hsub.map _)
  have hresult : (handleRemoveImage x ⟨l, dels, rev, ini⟩).orderedImages
      = (if x.destacada && (l.erase x).length > 0 then setHeadFeatured (l.erase x)
        else l.erase x) := by
    show (if x.destacada && (l.filter (fun y => !(y.id == x.id))).length > 0 then
        setHeadFeatured (l.filter (fun y => !(y.id == x.id)))
      else l.filter (fun y => !(y.id == x.id))) = _
    rw [hfilter]
  rw [hresult]
  refine ⟨?_, ?_, ?_⟩
  · split
    · rw [setHeadFeatured_map_id]; exact hide
    · exact hide
  · split
    · rw [setHeadFeatured_map_sid]; exact hside
    · exact hside
  · intro hne
    have hfeat1 : featCount l = 1 := hfeat (List.ne_nil_of_mem hx')
    cases hdest : x.destacada with
    | true =>
      have h0 : featCount (l.erase x) = 0 :=
        featCount_all_zero_of_one l x hx' hdest hfeat1
      cases herase : l.erase x with
      | nil =>
        exfalso
        simp [herase, setHeadFeatured] at hne
      | cons y ys =>
        rw [if_pos (show (true && decide ((y :: ys).length > 0)) = true by simp)]
        rw [featCount_setHeadFeatured_cons]
        rw [herase, featCount_cons] at h0
        omega
    | false =>
      rw [if_neg (show ¬ (false && decide ((l.erase x).length > 0)) = true by simp)]
      have h3 := featCount_erase l x hx'
      rw [hdest] at h3
      simp at h3
      omega

theorem perm_insertAt (j : Nat) (x : Image) (l : List Image) :
    (insertAt j x l).Perm (x :: l) := by
  induction l generalizing j with
  | nil => cases j <;> exact List.Perm.refl _
  | cons y t ih =>
    cases j with
    | zero => exact List.Perm.refl _
    | succ k =>
      show (y :: insertAt k x t).Perm (x :: y :: t)
      exact List.Perm.trans ((ih k).cons y) (List.Perm.swap x y t)

theorem perm_eraseIdx_cons (l : List Image) (i : Nat) (x : Image)
    (h : l[i]? = some x) : l.Perm (x :: l.eraseIdx i) := by
  induction l generalizing i with
  | nil => simp at h
  | cons y t ih =>
    cases i with
    | zero =>
      simp at h
      subst h
      exact List.Perm.refl _
    | succ k =>
      simp at h
      have hperm := ih k h
      show (y :: t).Perm (x :: y :: t.eraseIdx k)
      exact List.Perm.trans (hperm.cons y) (List.Perm.swap x y _)

theorem arrayMove_perm (l : List Image) (i j : Nat) : (arrayMove l i j).Perm l := by
  unfold arrayMove
  cases h : l[i]? with
  | none => exact List.Perm.refl l
  | some x =>
    exact (perm_insertAt j x (l.eraseIdx i)).trans (perm_eraseIdx_cons l i x h).symm

theorem invImages_of_perm (l m : List Image) (hp : m.Perm l) (hinv : InvImages l) :
    InvImages m := by
  obtain ⟨hid, hsid, hfeat⟩ := hinv
  refine ⟨?_, ?_, ?_⟩
  · exact ((hp.map (fun img => img.id)).nodup_iff).mpr hid
  · exact ((hp.map (fun img => img.storage_id)).nodup_iff).mpr hsid
  · intro hne
    have h1 : featCount m = featCount l := hp.countP_eq _
    rw [h1]
    apply hfeat
    intro hl
    rw [hl] at hp
    exact hne hp.eq_nil

theorem invImages_onDragEnd (s : UploaderState) (activeId overId : String)
    (hinv : InvImages s.orderedImages) :
    InvImages (onDragEnd activeId overId s).orderedImages := by
  unfold onDragEnd
  split
  · exact hinv
  · split
    · exact invImages_of_perm _ _ (arrayMove_perm _ _ _) hinv
    · exact hinv

theorem reach_invImages (s : UploaderState) (h : Reach s) :
    InvImages s.orderedImages := by
  induction h with
  | init => exact ⟨List.nodup_nil, List.nodup_nil, by intro h; simp [initState] at h⟩
  | addFiles s inputs h hfresh ih => exact invImages_handleFileSelect s inputs ih hfresh
  | setFeatured s sid h hmem ih => exact invImages_handleSetDestacada s sid ih hmem
  | remove s img h hmem ih => exact invImages_handleRemoveImage s img ih hmem
  | reorder s activeId overId h ih => exact invImages_onDragEnd s activeId overId ih

/-! ## Claim C1 -/

/-- C1 (amended): in every collection state reachable from the empty
collection by `handleFileSelect` (with fresh UUIDs), `handleRemoveImage`
of a collection member, `onDragEnd`, and `handleSetDestacada` applied to
the storage key of a collection member — the way the rendered UI invokes
them — a non-empty collection has exactly one featured item after every
operation. -/
theorem c1_exactly_one_featured (s : UploaderState) (h : Reach s)
    (hne : s.orderedImages ≠ []) : featCount s.orderedImages = 1 :=
  (reach_invImages s h).2.2 hne

/-- Witness for C1: after adding one file to the empty collection the
reachable state has exactly one featured item. -/
theorem c1_exactly_one_featured_witness :
    featCount (handleFileSelect [newInput1] initState).orderedImages = 1 :=
  c1_exactly_one_featured _
    (Reach.addFiles initState [newInput1] Reach.init (by decide))
    (by decide)

/-- C1 counterexample: under the claim's literal operation set — where
`setFeatured` may receive an arbitrary identity — the state reached by
adding one file and then calling `handleSetDestacada` with an identity
not in the collection is non-empty yet has zero featured items, because
`handleSetDestacada` clears every flag when nothing matches. -/
theorem c1_counterexample :
    ReachAny (handleSetDestacada "zz" (handleFileSelect [newInput1] initState))
    ∧ (handleSetDestacada "zz" (handleFileSelect [newInput1] initState)).orderedImages ≠ []
    ∧ featCount (handleSetDestacada "zz"
        (handleFileSelect [newInput1] initState)).orderedImages = 0 := by
  refine ⟨ReachAny.setFeatured _ "zz"
    (ReachAny.addFiles initState [newInput1] ReachAny.init (by decide)),
    by decide, by decide⟩

/-! ## Claim C4 -/

/-- C4 counterexample: `handleSetDestacada` with an identity that matches
no item is not a no-op on a state with a featured item — it clears the
featured flag. -/
theorem c4_counterexample :
    handleSetDestacada "zz" stateOneExisting ≠ stateOneExisting
    ∧ featCount stateOneExisting.orderedImages = 1
    ∧ featCount (handleSetDestacada "zz" stateOneExisting).orderedImages = 0 := by
  refine ⟨by decide, by decide, by decide⟩

/-- C4 (amended): `handleSetDestacada sid` sets `isFeatured` to
`storage_id == sid` on every item: the matched item (and only it) ends up
featured, nothing but featured flags changes, and for a not-found
identity the call leaves the collection unchanged only when no item was
featured — otherwise it unfeatures everything. -/
theorem c4_setFeatured_semantics (s : UploaderState) (sid : String) :
    (∀ img ∈ (handleSetDestacada sid s).orderedImages,
      img.destacada = (img.storage_id == sid))
    ∧ ((handleSetDestacada sid s).orderedImages.map clearFeatured
        = s.orderedImages.map clearFeatured)
    ∧ (handleSetDestacada sid s).imagesToDelete = s.imagesToDelete
    ∧ (handleSetDestacada sid s).revoked = s.revoked
    ∧ ((∀ img ∈ s.orderedImages, img.storage_id ≠ sid ∧ img.destacada = false) →
        handleSetDestacada sid s = s) := by
  obtain ⟨l, dels, rev, ini⟩ := s
  refine ⟨?_, ?_, rfl, rfl, ?_⟩
  · intro img hmem
    have hmem2 : img ∈ l.map (fun x => { x with destacada := x.storage_id == sid }) :=
      hmem
    rw [List.mem_map] at hmem2
    obtain ⟨x, _, rfl⟩ := hmem2
    rfl
  · show (l.map _).map clearFeatured = l.map clearFeatured
    rw [List.map_map]
    rfl
  · intro hall
    show UploaderState.mk (l.map (fun x => { x with destacada := x.storage_id == sid }))
      dels rev ini = UploaderState.mk l dels rev ini
    have hmapid : ∀ img ∈ l,
        ({ img with destacada := img.storage_id == sid } : Image) = img := by
      intro img hm
      obtain ⟨h1, h2⟩ := hall img hm
      have hbeq : (img.storage_id == sid) = false := by simp [h1]
      cases img
      simp only [Image.mk.injEq, and_true, true_and]
      simp at h2
      rw [hbeq, h2]
    have : l.map (fun x => { x with destacada := x.storage_id == sid }) = l := by
      calc l.map (fun x => ({ x with destacada := x.storage_id == sid } : Image))
          = l.map id := List.map_congr_left hmapid
        _ = l := List.map_id l
    rw [this]

/-- Witness for C4 (amended): applying the amended characterisation at a
concrete state and identity. -/
theorem c4_setFeatured_semantics_witness :
    (handleSetDestacada "sa" stateOneExisting).imagesToDelete
      = stateOneExisting.imagesToDelete :=
  (c4_setFeatured_semantics stateOneExisting "sa").2.2.1

/-! ## Claim C6 -/

/-- C6: removing an existing image appends exactly one
`(persistedId, storageKey)` entry to the pending-deletion list and revokes
nothing; removing a new image appends nothing and revokes its preview URL
exactly once; in both cases no item with the removed id remains in the
collection. -/
theorem c6_remove_effects (s : UploaderState) (x : Image) :
    (x.isNew = false →
      (handleRemoveImage x s).imagesToDelete
        = s.imagesToDelete ++ [(x.id, x.storage_id)]
      ∧ (handleRemoveImage x s).revoked = s.revoked)
    ∧ (x.isNew = true →
      (handleRemoveImage x s).imagesToDelete = s.imagesToDelete
      ∧ (handleRemoveImage x s).revoked = x.url :: s.revoked)
    ∧ (∀ y ∈ (handleRemoveImage x s).orderedImages, y.id ≠ x.id) := by
  obtain ⟨l, dels, rev, ini⟩ := s
  refine ⟨?_, ?_, ?_⟩
  · intro hnew
    constructor
    · show (if x.isNew then dels else dels ++ [(x.id, x.storage_id)])
        = dels ++ [(x.id, x.storage_id)]
      rw [hnew]
      simp
    · show (if x.isNew then x.url :: rev else rev) = rev
      rw [hnew]
      simp
  · intro hnew
    constructor
    · show (if x.isNew then dels else dels ++ [(x.id, x.storage_id)]) = dels
      rw [hnew]
      simp
    · show (if x.isNew then x.url :: rev else rev) = x.url :: rev
      rw [hnew]
      simp
  · intro y hy
    have hre : (handleRemoveImage x ⟨l, dels, rev, ini⟩).orderedImages.map
        (fun img => img.id)
        = (l.filter (fun img => !(img.id == x.id))).map (fun img => img.id) := by
      show (if x.destacada && (l.filter (fun img => !(img.id == x.id))).length > 0 then
          setHeadFeatured (l.filter (fun img => !(img.id == x.id)))
        else l.filter (fun img => !(img.id == x.id))).map (fun img => img.id) = _
      split
      · exact setHeadFeatured_map_id _
      · rfl
    have hy2 : y.id ∈ (l.filter (fun img => !(img.id == x.id))).map
        (fun img => img.id) := by
      rw [← hre]
      exact List.mem_map_of_mem _ hy
    rw [List.mem_map] at hy2
    obtain ⟨z, hz, hzy⟩ := hy2
    have hzf := List.of_mem_filter hz
    simp at hzf
    intro he
    exact hzf (hzy.trans he)

/-- Witness for C6: removing the featured existing image from the seeded
one-image state logs exactly its deletion entry and revokes nothing. -/
theorem c6_remove_effects_witness :
    (handleRemoveImage imgExisting stateOneExisting).imagesToDelete
        = stateOneExisting.imagesToDelete ++ [(imgExisting.id, imgExisting.storage_id)]
    ∧ (handleRemoveImage imgExisting stateOneExisting).revoked
        = stateOneExisting.revoked :=
  (c6_remove_effects stateOneExisting imgExisting).1 rfl

/-! ## Claim C5 -/

theorem extractMetadataAux_order (l : List Image) :
    ∀ idx, (extractMetadataAux idx l).map (fun m => m.order_index)
      = List.range' (idx + 1) l.length := by
  induction l with
  | nil => intro idx; rfl
  | cons img rest ih =>
    intro idx
    rw [List.length_cons, List.range'_succ]
    simp only [extractMetadataAux, List.map_cons]
    rw [ih (idx + 1)]

theorem extractMetadataAux_destacada (l : List Image) :
    ∀ idx, (extractMetadataAux idx l).map (fun m => m.destacada)
      = l.map (fun img => img.destacada) := by
  induction l with
  | nil => intro idx; rfl
  | cons img rest ih =>
    intro idx
    simp only [extractMetadataAux, List.map_cons]
    rw [ih (idx + 1)]

theorem extractMetadataAux_sid (l : List Image) :
    ∀ idx, (extractMetadataAux idx l).map (fun m => m.storage_id)
      = l.map (fun img => img.storage_id) := by
  induction l with
  | nil => intro idx; rfl
  | cons img rest ih =>
    intro idx
    simp only [extractMetadataAux, List.map_cons]
    rw [ih (idx + 1)]

/-- C5: change-set extraction is a pure function of the ordered collection
and the pending-deletion list; the item at 0-based position `i` gets
`order_index = i + 1` (the indices read off in order are exactly
`1, …, n`, contiguous and 1-based), each entry carries its item's current
featured flag and storage key, every new item's binary travels under its
storage key, deletions pass through unchanged, and a second extraction of
the unchanged state is identical. -/
theorem c5_changeset_extraction (l : List Image) (d : List (String × String)) :
    ((extractChanges l d).orderedImagesMetadata.map (fun m => m.order_index)
        = List.range' 1 l.length)
    ∧ ((extractChanges l d).orderedImagesMetadata.map (fun m => m.destacada)
        = l.map (fun img => img.destacada))
    ∧ ((extractChanges l d).orderedImagesMetadata.map (fun m => m.storage_id)
        = l.map (fun img => img.storage_id))
    ∧ (∀ img fl, img ∈ l → img.isNew = true → img.file = some fl →
        (img.storage_id, fl) ∈ (extractChanges l d).filesToUpload)
    ∧ ((extractChanges l d).imageIdsToDelete = d)
    ∧ (extractChanges l d = extractChanges l d) := by
  refine ⟨extractMetadataAux_order l 0, extractMetadataAux_destacada l 0,
    extractMetadataAux_sid l 0, ?_, rfl, rfl⟩
  intro img fl hmem hnew hfile
  refine List.mem_filterMap.mpr ⟨img, hmem, ?_⟩
  rw [hnew, hfile]
  simp

/-- Witness for C5: the extraction applied to a concrete two-item
collection assigns order indices 1 and 2. -/
theorem c5_changeset_extraction_witness :
    (extractChanges [imgNew, imgExisting] [("x", "sx")]).orderedImagesMetadata.map
        (fun m => m.order_index) = List.range' 1 2 :=
  (c5_changeset_extraction [imgNew, imgExisting] [("x", "sx")]).1

/-! ## Claim C9 -/

theorem perm_insertByOrder (x : ExistingInput) (l : List ExistingInput) :
    (insertByOrder x l).Perm (x :: l) := by
  induction l with
  | nil => exact List.Perm.refl _
  | cons y ys ih =>
    simp only [insertByOrder]
    split
    · exact List.Perm.refl _
    · exact List.Perm.trans (ih.cons y) (List.Perm.swap x y ys)

theorem perm_sortByOrderIndex (l : List ExistingInput) :
    (sortByOrderIndex l).Perm l := by
  induction l with
  | nil => exact List.Perm.refl _
  | cons x xs ih =>
    simp only [sortByOrderIndex]
    exact (perm_insertByOrder x (sortByOrderIndex xs)).trans (ih.cons x)

theorem pairwise_insertByOrder (x : ExistingInput) (l : List ExistingInput)
    (h : List.Pairwise (fun a b => a.order_index ≤ b.order_index) l) :
    List.Pairwise (fun a b => a.order_index ≤ b.order_index) (insertByOrder x l) := by
  induction l with
  | nil => simp [insertByOrder]
  | cons y ys ih =>
    simp only [insertByOrder]
    rw [List.pairwise_cons] at h
    split
    · rename_i hle
      rw [List.pairwise_cons]
      refine ⟨?_, List.pairwise_cons.mpr h⟩
      intro b hb
      rcases List.mem_cons.mp hb with rfl | hbys
      · exact hle
      · exact le_trans hle (h.1 b hbys)
    · rename_i hgt
      rw [List.pairwise_cons]
      refine ⟨?_, ih h.2⟩
      intro b hb
      have hyx : y.order_index ≤ x.order_index := le_of_not_le hgt
      have hb2 : b ∈ x :: ys := (perm_insertByOrder x ys).mem_iff.mp hb
      rcases List.mem_cons.mp hb2 with rfl | hbys
      · exact hyx
      · exact h.1 b hbys

theorem pairwise_sortByOrderIndex (l : List ExistingInput) :
    List.Pairwise (fun a b => a.order_index ≤ b.order_index) (sortByOrderIndex l) := by
  induction l with
  | nil => simp [sortByOrderIndex]
  | cons x xs ih =>
    simp only [sortByOrderIndex]
    exact pairwise_insertByOrder x (sortByOrderIndex xs) ih

/-- C9: seeding the fresh state loads exactly the snapshot, sorted
ascending by persisted `order_index` and tagged `isNew = false`, and any
later seed call (with any snapshot) is a no-op on an already-seeded
state. -/
theorem c9_seed_properties (e eTwo : List ExistingInput) (s : UploaderState) :
    ((seed e initState).orderedImages = (sortByOrderIndex e).map seedImage)
    ∧ (sortByOrderIndex e).Perm e
    ∧ List.Pairwise (fun a b => a.order_index ≤ b.order_index) (sortByOrderIndex e)
    ∧ (∀ img ∈ (seed e initState).orderedImages, img.isNew = false)
    ∧ seed eTwo (seed e s) = seed e s := by
  have h1 : (seed e initState).orderedImages = (sortByOrderIndex e).map seedImage := by
    cases e with
    | nil => simp [seed, initState, sortByOrderIndex]
    | cons a rest => simp [seed, initState]
  refine ⟨h1, perm_sortByOrderIndex e, pairwise_sortByOrderIndex e, ?_, ?_⟩
  · intro img hmem
    rw [h1, List.mem_map] at hmem
    obtain ⟨x, _, rfl⟩ := hmem
    rfl
  · have hstep : ∀ t : UploaderState, t.isInitialized = true → seed eTwo t = t := by
      intro t ht
      simp [seed, ht]
    apply hstep
    by_cases hs : s.isInitialized = true
    · simp [seed, hs]
    · simp [seed, hs]

/-- Witness for C9: seeding the fresh state with an out-of-order snapshot
yields it sorted, and a second seed is a no-op. -/
theorem c9_seed_properties_witness :
    seed [] (seed [⟨"i2", "u2", "s2", 2, false⟩, ⟨"i1", "u1", "s1", 1, true⟩] initState)
      = seed [⟨"i2", "u2", "s2", 2, false⟩, ⟨"i1", "u1", "s1", 1, true⟩] initState :=
  (c9_seed_properties [⟨"i2", "u2", "s2", 2, false⟩, ⟨"i1", "u1", "s1", 1, true⟩]
    [] initState).2.2.2.2

/-! ## Helper lemmas: the server action -/

theorem runAction_happy (env : Env) (jsN : String → Option Int) (f : FormInput)
    (hs : env.sessionOk = true) (hu : env.userOk = true)
    (hv : (validateFields jsN f).isEmpty = true) (hveh : env.vehicleInsertOk = true) :
    runAction env jsN f =
      (ActionResult.redirectTo "/vehiculos",
       Ev.vehicleInsert ::
         ((imageTasks env f.files f.orderedImagesMetadata f.imageIdsToDelete).flatMap
            Prod.fst
           ++ coverStep env f.orderedImagesMetadata)) := by
  simp [runAction, hs, hu, hv, hveh]

theorem list_isEmpty_append {α : Type} (l m : List α) :
    (l ++ m).isEmpty = (l.isEmpty && m.isEmpty) := by
  cases l <;> simp

theorem isEmpty_errItem (c : Bool) (x : String × String) :
    (if c = true then [x] else ([] : List (String × String))).isEmpty = !c := by
  cases c <;> simp

theorem sublist_flatMap_of_mem {α β : Type} (g : α → List β) (l : List α) (a : α)
    (h : a ∈ l) : (g a).Sublist (l.flatMap g) := by
  induction l with
  | nil => cases h
  | cons x xs ih =>
    rw [List.flatMap_cons]
    rcases List.mem_cons.mp h with rfl | h2
    · exact List.sublist_append_left _ _
    · exact (ih h2).trans (List.sublist_append_right _ _)

/-! ## Claim C2 -/

/-- C2: once the parent vehicle row exists, the action's result is the
success redirect for every environment — in particular for environments
in which any subset of per-item uploads, inserts, updates, object-store
removals or row deletions fail; `Promise.allSettled` receives one settled
outcome per task; each task's attempted store operations appear in the
trace whatever happens to its siblings; and the cover-image step follows
all per-item operations unconditionally. -/
theorem c2_partial_failure_tolerance (env : Env) (jsN : String → Option Int)
    (f : FormInput) (hs : env.sessionOk = true) (hu : env.userOk = true)
    (hv : (validateFields jsN f).isEmpty = true) (hveh : env.vehicleInsertOk = true) :
    ((runAction env jsN f).1 = ActionResult.redirectTo "/vehiculos")
    ∧ ((settledOutcomes env f).length
        = (f.orderedImagesMetadata.filter (fun m => m.isNew)).length
          + (f.orderedImagesMetadata.filter (fun m => !m.isNew)).length
          + f.imageIdsToDelete.length)
    ∧ (∀ t ∈ imageTasks env f.files f.orderedImagesMetadata f.imageIdsToDelete,
        t.1.Sublist (runAction env jsN f).2)
    ∧ ((runAction env jsN f).2
        = Ev.vehicleInsert ::
          ((imageTasks env f.files f.orderedImagesMetadata f.imageIdsToDelete).flatMap
              Prod.fst
            ++ coverStep env f.orderedImagesMetadata)) := by
  have hr := runAction_happy env jsN f hs hu hv hveh
  refine ⟨by rw [hr], ?_, ?_, by rw [hr]⟩
  · simp [settledOutcomes, imageTasks]
    omega
  · intro t ht
    rw [hr]
    have h1 : t.1.Sublist
        ((imageTasks env f.files f.orderedImagesMetadata f.imageIdsToDelete).flatMap
          Prod.fst) :=
      sublist_flatMap_of_mem Prod.fst _ t ht
    exact (h1.trans (List.sublist_append_left _ _)).cons _

/-- Witness for C2: with every upload and object removal failing, the
submission still redirects and both tasks settle. -/
theorem c2_partial_failure_tolerance_witness :
    ((runAction envUploadFails jsNumberConst formFixture).1
        = ActionResult.redirectTo "/vehiculos")
    ∧ (settledOutcomes envUploadFails formFixture).length = 2 := by
  have h := c2_partial_failure_tolerance envUploadFails jsNumberConst formFixture
    rfl rfl (by decide) rfl
  refine ⟨h.1, ?_⟩
  rw [h.2.1]
  decide

/-! ## Claim C3 -/

/-- C3 counterexample: in an environment where the featured new image's
upload fails, its task settles rejected, yet the cover-image step still
writes the parent's cover field with that image's computed public URL —
the step does not choose among the successes. -/
theorem c3_counterexample :
    (uploadTask envUploadFails formFixture.files metaNewFeatured).2
        = Settled.rejected "uploadError"
    ∧ coverStep envUploadFails formFixture.orderedImagesMetadata
        = [Ev.coverUpdate "vu" "https://cdn/7/n1" true]
    ∧ Ev.coverUpdate "vu" "https://cdn/7/n1" true
        ∈ (runAction envUploadFails jsNumberConst formFixture).2 := by
  refine ⟨by decide, by decide, by decide⟩

/-- C3 (amended): after the per-item operations settle the cover step runs
on the first featured metadata entry regardless of whether that entry's
own operation succeeded: for a featured new entry it writes the public
URL computed from the storage path, for a featured existing entry its
stored URL, skipping the write when that URL is empty; with no featured
entry the parent field is left untouched. -/
theorem c3_cover_step_semantics (env : Env) (jsN : String → Option Int)
    (f : FormInput) (hs : env.sessionOk = true) (hu : env.userOk = true)
    (hv : (validateFields jsN f).isEmpty = true) (hveh : env.vehicleInsertOk = true) :
    ((runAction env jsN f).2
      = Ev.vehicleInsert ::
        ((imageTasks env f.files f.orderedImagesMetadata f.imageIdsToDelete).flatMap
            Prod.fst
          ++ coverStep env f.orderedImagesMetadata))
    ∧ (f.orderedImagesMetadata.find? (fun m => m.destacada) = none →
        coverStep env f.orderedImagesMetadata = [])
    ∧ (∀ m, f.orderedImagesMetadata.find? (fun mm => mm.destacada) = some m →
        coverStep env f.orderedImagesMetadata
          = (if (if m.isNew then env.publicUrl (storagePath env.vehicleId m.storage_id)
                else m.url.getD "") == "" then []
            else [Ev.coverUpdate env.vehicleUuid
              (if m.isNew then env.publicUrl (storagePath env.vehicleId m.storage_id)
                else m.url.getD "") env.coverUpdateOk])) := by
  have hr := runAction_happy env jsN f hs hu hv hveh
  refine ⟨by rw [hr], ?_, ?_⟩
  · intro hnone
    simp [coverStep, hnone]
  · intro m hm
    simp [coverStep, hm]

/-- Witness for C3 (amended): at the concrete failing environment the
cover step's trace position and value follow the characterisation. -/
theorem c3_cover_step_semantics_witness :
    coverStep envUploadFails formFixture.orderedImagesMetadata
      = (if (if metaNewFeatured.isNew then
            envUploadFails.publicUrl
              (storagePath envUploadFails.vehicleId metaNewFeatured.storage_id)
          else metaNewFeatured.url.getD "") == "" then []
        else [Ev.coverUpdate envUploadFails.vehicleUuid
          (if metaNewFeatured.isNew then
            envUploadFails.publicUrl
              (storagePath envUploadFails.vehicleId metaNewFeatured.storage_id)
          else metaNewFeatured.url.getD "") envUploadFails.coverUpdateOk]) :=
  (c3_cover_step_semantics envUploadFails jsNumberConst formFixture rfl rfl
    (by decide) rfl).2.2 metaNewFeatured (by decide)

/-! ## Claim C7 -/

/-- C7: when the session is valid, any missing or empty required field (or
a non-numeric value in a numeric field) makes validation produce a
non-empty field-keyed error map, and a non-empty error map makes the
action return exactly that map with an empty operation trace — no vehicle
insert, no upload, no metadata insert, update or delete is attempted. -/
theorem c7_validation_short_circuit (env : Env) (jsN : String → Option Int)
    (f : FormInput) (hs : env.sessionOk = true) (hu : env.userOk = true) :
    ((strFieldError f.marca || strFieldError f.modelo || numFieldError jsN f.anio
      || strFieldError f.version || numFieldError jsN f.puertas
      || strFieldError f.combustible || strFieldError f.color
      || placaFieldError f.placa || numFieldError jsN f.km
      || numFieldError jsN f.precio || strFieldError f.transmision
      || strFieldError f.carroceria || strFieldError f.traccion
      || numFieldError jsN f.cilindraje) = true →
      (validateFields jsN f).isEmpty = false)
    ∧ ((validateFields jsN f).isEmpty = false →
        runAction env jsN f
          = (ActionResult.validationErrors (validateFields jsN f), [])) := by
  constructor
  · intro hor
    simp only [Bool.or_eq_true] at hor
    rcases hor with ((((((((((((h | h) | h) | h) | h) | h) | h) | h) | h) | h) | h) | h) | h) | h <;>
      simp [validateFields, list_isEmpty_append, isEmpty_errItem, h]
  · intro hemp
    simp [runAction, hs, hu, hemp]

/-- Witness for C7: the concrete form with `marca` missing is rejected
with the field-keyed error map and an empty trace. -/
theorem c7_validation_short_circuit_witness :
    runAction envAllOk jsNumberConst formMarcaMissing
      = (ActionResult.validationErrors (validateFields jsNumberConst formMarcaMissing),
        []) := by
  have h := c7_validation_short_circuit envAllOk jsNumberConst formMarcaMissing rfl rfl
  exact h.2 (h.1 (by decide))

/-! ## Claim C8 -/

/-- C8: for every deletion entry and every environment — including those
in which the object-store removal fails or the object is missing, and
those in which the row deletion fails — the delete task attempts the
object-store removal and then the row deletion unconditionally, and its
promise settles fulfilled (neither result is inspected or thrown). -/
theorem c8_delete_task_independent (env : Env) (item : DeleteItem) :
    ((deleteTask env item).1
      = [Ev.storageRemove (storagePath env.vehicleId item.storage_id)
          (env.storageRemoveOk (storagePath env.vehicleId item.storage_id)),
        Ev.rowDelete item.id (env.rowDeleteOk item.id)])
    ∧ (deleteTask env item).2 = Settled.fulfilled
    ∧ Ev.rowDelete item.id (env.rowDeleteOk item.id) ∈ (deleteTask env item).1
    ∧ Ev.storageRemove (storagePath env.vehicleId item.storage_id)
        (env.storageRemoveOk (storagePath env.vehicleId item.storage_id))
        ∈ (deleteTask env item).1 := by
  refine ⟨rfl, rfl, ?_, ?_⟩ <;> simp [deleteTask]

/-! ## Claim C10 -/

/-- C10: a new metadata entry whose `storage_id` has no binary in the
submitted form makes its task return early — no upload, no insert, a
fulfilled outcome — and the submission as a whole still redirects to
success. -/
theorem c10_missing_binary_noop (env : Env) (jsN : String → Option Int)
    (f : FormInput) (meta : ImageMetadata)
    (hfile : f.files meta.storage_id = none) :
    uploadTask env f.files meta = ([], Settled.fulfilled)
    ∧ (env.sessionOk = true → env.userOk = true →
        (validateFields jsN f).isEmpty = true → env.vehicleInsertOk = true →
        (runAction env jsN f).1 = ActionResult.redirectTo "/vehiculos") := by
  constructor
  · simp [uploadTask, hfile]
  · intro hs hu hv hveh
    rw [runAction_happy env jsN f hs hu hv hveh]

/-- Witness for C10: the concrete form with no binaries attached skips the
upload task and still succeeds. -/
theorem c10_missing_binary_noop_witness :
    uploadTask envAllOk formNoFiles.files metaNewFeatured = ([], Settled.fulfilled)
    ∧ (runAction envAllOk jsNumberConst formNoFiles).1
        = ActionResult.redirectTo "/vehiculos" := by
  have h := c10_missing_binary_noop envAllOk jsNumberConst formNoFiles metaNewFeatured rfl
  exact ⟨h.1, h.2 rfl rfl (by decide) rfl⟩

end Arrankar
